import Mathlib

/-!
Shallow embedding of the query core of the `aro` card-search repository
(files `src/parser.rs` and `src/filter.rs`).  Machine integers (Rust `i32`)
are modelled as `Int`; the only place where the `i32` range matters is
`str::parse::<i32>`, which is modelled with an explicit range check.
Rust `String`s are modelled as Lean `String`s (operated on through their
character lists).  The external `regex` crate is modelled by carrying the
(lowercased) pattern string inside `Value.Regex` and passing a matching
oracle `rm : String → String → Bool` (pattern → text → match result) to the
evaluator; none of the verified properties depend on actual regex matching.
-/

namespace Aro

/-- Fields of the query language, from `parser.rs` (`enum Field`). -/
inductive Field where
  | Atk
  | Def
  | Legal
  | Level
  | Genesys
  | LinkRating
  | Year
  | Price
  | Set
  | Type
  | Attribute
  | Name
  | Text
deriving DecidableEq, Repr

/-- Discriminant values of `enum Field` in `parser.rs` (used by the
`v.sort_by_key(|RawCardFilter(f, _, _)| *f as u8)` cost sort). -/
def fieldOrd : Field → Nat
  | .Atk => 1
  | .Def => 2
  | .Legal => 3
  | .Level => 4
  | .Genesys => 5
  | .LinkRating => 6
  | .Year => 8
  | .Price => 9
  | .Set => 10
  | .Type => 12
  | .Attribute => 14
  | .Name => 18
  | .Text => 20

/-- Operators of the query language, from `parser.rs` (`enum Operator`). -/
inductive Operator where
  | Equal
  | NotEqual
  | Less
  | LessEqual
  | Greater
  | GreaterEqual
deriving DecidableEq, Repr

/-- Rust `Operator::filter_number` from `parser.rs`. -/
def Operator.filter_number (op : Operator) (a b : Int) : Bool :=
  match op with
  | .Equal => a == b
  | .Less => decide (a < b)
  | .LessEqual => decide (a ≤ b)
  | .Greater => decide (a > b)
  | .GreaterEqual => decide (a ≥ b)
  | .NotEqual => a != b

/-- Values of the query language, from `parser.rs` (`enum Value`).
`Regex` carries the lowercased pattern string of the compiled
`regex::Regex` (the compiled automaton itself lives in the external
`regex` crate and is not modelled). -/
inductive Value where
  | String : String → Value
  | Regex : String → Value
  | Numerical : Int → Value
  | Multiple : List Value → Value
  | MultiplePartial : List String → Value
  | None : Value
deriving Repr

mutual

/-- Rust `impl PartialEq for Value` from `parser.rs` (regexes compare by
their pattern string, all other variants structurally). -/
def valueEq : Value → Value → Bool
  | .String s1, .String s2 => s1 == s2
  | .Numerical a, .Numerical b => a == b
  | .Multiple v1, .Multiple v2 => valueListEq v1 v2
  | .MultiplePartial v1, .MultiplePartial v2 => v1 == v2
  | .Regex r1, .Regex r2 => r1 == r2
  | .None, .None => true
  | _, _ => false

/-- Pointwise `Vec<Value>` equality (Rust derives this for `Vec`). -/
def valueListEq : List Value → List Value → Bool
  | [], [] => true
  | a :: t1, b :: t2 => valueEq a b && valueListEq t1 t2
  | _, _ => false

end

/-- Rust `str::contains(&str)`: substring occurrence. -/
def rcontains (s q : String) : Bool := decide (q.data <:+: s.data)

/-- Rust `str::to_lowercase()`, character by character (all strings handled
by this program are ASCII, where Rust's Unicode lowercasing and
`Char.toLower` agree). -/
def toLowerStr (s : String) : String := String.mk (s.data.map Char.toLower)

/-- Accumulator loop for `splitChar`. -/
def splitCharAux (sep : Char) : List Char → List Char → List (List Char)
  | [], acc => [acc.reverse]
  | c :: t, acc =>
    if c = sep then acc.reverse :: splitCharAux sep t []
    else splitCharAux sep t (c :: acc)

/-- Rust `str::split(char)`: the (always non-empty) list of chunks between
occurrences of the separator. -/
def splitChar (sep : Char) (s : String) : List String :=
  (splitCharAux sep s.data []).map String.mk

/-- The search projection of one card, from `filter.rs` (`struct SearchCard`).
The Rust fields `def` and `attribute` are spelled `def_` and `attribute_`
because both words are Lean keywords. -/
structure SearchCard where
  id : Nat
  typeline : List String
  names : List String
  text : String
  atk : Option Int
  def_ : Option Int
  attribute_ : Option String
  level : Option Int
  link_rating : Option Int
  link_arrows : Option (List String)
  sets : List String
  original_year : Option Int
  legal_copies : Int
  genesys_points : Int
  price : Option Int

/-- Rust `get_field_value` from `filter.rs`: the `?` operator on the
optional card fields makes the whole function return `None` when the
field is inapplicable. -/
def get_field_value (card : SearchCard) (field : Field) : Option Value :=
  match field with
  | .Atk => card.atk.map Value.Numerical
  | .Def => card.def_.map Value.Numerical
  | .Legal => some (Value.Numerical card.legal_copies)
  | .Level => card.level.map Value.Numerical
  | .LinkRating => card.link_rating.map Value.Numerical
  | .Genesys => some (Value.Numerical card.genesys_points)
  | .Year => card.original_year.map Value.Numerical
  | .Set => some (Value.Multiple (card.sets.map Value.String))
  | .Type => some (Value.Multiple (card.typeline.map Value.String))
  | .Attribute => some (Value.String (card.attribute_.getD ("")))
  | .Name => some (Value.MultiplePartial card.names)
  | .Text => some (Value.String card.text)
  | .Price => card.price.map Value.Numerical

/-- Rust `filter_value` from `filter.rs`.  `rm` is the external regex
matcher (`query.is_match(field)` is `rm pattern field`).  The arm for a
`Numerical` field against a `String` query carries the Rust guard
`matches!(op, Equal | NotEqual) && query == "?"`; when the guard fails the
Rust `match` falls through to the final catch-all, which returns `false`. -/
def filter_value (rm : String → String → Bool) (op : Operator)
    (field_value query_value : Value) : Bool :=
  match field_value, query_value with
  | .None, _ => false
  | .Numerical f, .Numerical q => op.filter_number f q
  | .Numerical f, .String q =>
    if (op = .Equal ∨ op = .NotEqual) ∧ q = "?" then op.filter_number f (-1) else false
  | .String f, .String q =>
    match op with
    | .Equal => rcontains f q
    | .NotEqual => !rcontains f q
    | _ => false
  | .String f, .Regex q =>
    match op with
    | .Equal => rm q f
    | .NotEqual => !rm q f
    | _ => false
  | .Multiple f, .String q =>
    match op with
    | .Equal => f.any (fun v => valueEq v (Value.String q))
    | .NotEqual => !f.any (fun v => valueEq v (Value.String q))
    | _ => false
  | .MultiplePartial f, .String q =>
    match op with
    | .Equal => f.any (fun s => rcontains s q)
    | .NotEqual => !f.any (fun s => rcontains s q)
    | _ => false
  | _, _ => false

/-- A parsed clause, from `parser.rs` (`struct RawCardFilter(Field, Operator, Value)`). -/
structure RawCardFilter where
  field : Field
  op : Operator
  value : Value

/-- The predicate a clause compiles to, from `build_filter` in `filter.rs`:
a `Multiple` query value tests whether ANY alternative matches; a single
value is tested directly.  In both cases an absent field value is replaced
by `Value::default()` (`Value::None`) via `unwrap_or_default`. -/
def compiled_filter (rm : String → String → Bool) (rc : RawCardFilter)
    (card : SearchCard) : Bool :=
  match rc with
  | ⟨field, op, .Multiple values⟩ =>
    let field_value := (get_field_value card field).getD Value.None
    values.any (fun query_value => filter_value rm op field_value query_value)
  | ⟨field, op, single_value⟩ =>
    let field_value := (get_field_value card field).getD Value.None
    filter_value rm op field_value single_value

/-- Rust `build_filter` from `filter.rs`: both match arms wrap a closure in
`Ok`, so the function never returns `Err` despite its `Result` type. -/
def build_filter (rm : String → String → Bool) (rc : RawCardFilter) :
    Except String (SearchCard → Bool) :=
  Except.ok (compiled_filter rm rc)

/-! Embedding of the nom combinators used by `parser.rs`.  A parser takes
the remaining input (a character list) and either fails (`none`) or
returns the rest of the input together with the parsed value, exactly
like nom's `IResult<&str, T>` (error details are not modelled). -/

abbrev Input := List Char

/-- Result of a nom parser: `none` is an error, otherwise rest and value. -/
abbrev PR (α : Type) := Option (Input × α)

/-- Index of the first occurrence of `pat` as a contiguous subsequence. -/
def findSub (pat : Input) (s : Input) : Option Nat :=
  match s with
  | [] => if pat.isEmpty then some 0 else none
  | _ :: t => if List.isPrefixOf pat s then some 0 else (findSub pat t).map Nat.succ

/-- nom `take_until1(pat)`: input up to the first occurrence of `pat`
(not consuming `pat`); errors if `pat` does not occur or occurs at the
start (the taken part must be non-empty). -/
def takeUntil1 (pat : Input) (s : Input) : PR Input :=
  match findSub pat s with
  | some i => if i = 0 then none else some (s.drop i, s.take i)
  | none => none

/-- nom `take_while(p)`: longest (possibly empty) prefix satisfying `p`. -/
def takeWhileP (p : Char → Bool) (s : Input) : PR Input :=
  some (s.dropWhile p, s.takeWhile p)

/-- nom `take_while_m_n(m, n, p)`: longest prefix satisfying `p`, capped at
`n` characters; errors when fewer than `m` characters match. -/
def takeWhileMN (m n : Nat) (p : Char → Bool) (s : Input) : PR Input :=
  let v := (s.takeWhile p).take n
  if v.length < m then none else some (s.drop v.length, v)

/-- nom `char(c)`. -/
def pchar (c : Char) (s : Input) : PR Char :=
  match s with
  | c' :: t => if c' = c then some (t, c) else none
  | [] => none

/-- nom `rest`: consumes and returns the whole remaining input. -/
def prest (s : Input) : PR Input :=
  some ([], s)

/-- nom `multispace0`: drops leading whitespace (space, tab, CR, LF). -/
def multispace0 (s : Input) : Input :=
  s.dropWhile Char.isWhitespace

/-- Rust `OPERATOR_CHARS` from `parser.rs`. -/
def OPERATOR_CHARS : List Char := ['=', '<', '>', ':', '!']

/-- Rust `Field::from_str` from `parser.rs` (case-insensitive aliases). -/
def fieldFromStr (s : String) : Option Field :=
  match toLowerStr s with
  | "atk" => some .Atk
  | "def" => some .Def
  | "level" | "l" => some .Level
  | "type" | "t" => some .Type
  | "attribute" | "attr" | "a" => some .Attribute
  | "o" | "eff" | "text" | "effect" | "e" => some .Text
  | "lr" | "linkrating" => some .LinkRating
  | "g" | "gen" | "genesys" => some .Genesys
  | "name" => some .Name
  | "set" | "s" => some .Set
  | "year" | "y" => some .Year
  | "legal" | "copies" => some .Legal
  | "price" | "p" => some .Price
  | _ => none

/-- Rust `Operator::from_str` from `parser.rs`. -/
def opFromStr (s : String) : Option Operator :=
  match s with
  | "=" | "==" | ":" => some .Equal
  | ">=" | "=>" => some .GreaterEqual
  | "<=" | "=<" => some .LessEqual
  | ">" => some .Greater
  | "<" => some .Less
  | "!=" => some .NotEqual
  | _ => none

/-- Rust `fn field` from `parser.rs`:
`map_res(take_while(char::is_alphabetic), str::parse)`. -/
def pfield (s : Input) : PR Field :=
  match takeWhileP Char.isAlpha s with
  | some (rest, v) => (fieldFromStr (String.mk v)).map (fun f => (rest, f))
  | none => none

/-- Rust `fn operator` from `parser.rs`:
`map_res(take_while_m_n(1, 2, |c| OPERATOR_CHARS.contains(&c)), str::parse)`. -/
def poperator (s : Input) : PR Operator :=
  match takeWhileMN 1 2 (fun c => OPERATOR_CHARS.contains c) s with
  | some (rest, v) => (opFromStr (String.mk v)).map (fun o => (rest, o))
  | none => none

/-- Rust `sanitize` from `parser.rs`. -/
def sanitize (query : String) : Except String String :=
  if query.data.isEmpty then Except.error ("Query must not be empty")
  else Except.ok (toLowerStr query)

/-- Rust `fallback_filter` from `parser.rs` (note: unlike the legacy
standalone `main.rs`, this version performs no operator-character check). -/
def fallback_filter (query : String) : Except String RawCardFilter :=
  (sanitize query).map (fun s => ⟨Field.Name, Operator.Equal, Value.String s⟩)

/-- Rust `word_non_empty` from `parser.rs`:
`verify(alt((take_until1(" "), rest)), |s| !s.is_empty())`. -/
def word_non_empty (s : Input) : PR Input :=
  let r := match takeUntil1 [' '] s with
    | some rv => some rv
    | none => prest s
  match r with
  | some (rest, v) => if !v.isEmpty then some (rest, v) else none
  | none => none

/-- Rust `str::parse::<i32>`: optional sign, at least one ASCII digit,
nothing else, and the result must fit in an `i32`. -/
def parseI32 (s : String) : Option Int :=
  let core : Int × List Char :=
    match s.data with
    | '+' :: t => (1, t)
    | '-' :: t => (-1, t)
    | t => (1, t)
  match core with
  | (sign, digits) =>
    if digits.isEmpty then none
    else if digits.all Char.isDigit then
      let n : Int := Int.ofNat (digits.foldl (fun acc c => acc * 10 + (c.toNat - 48)) 0)
      let v : Int := sign * n
      if -2147483648 ≤ v ∧ v ≤ 2147483647 then some v else none
    else none

/-- Rust `parse_single_value` from `parser.rs`. -/
def parse_single_value (input : String) : Except String Value :=
  match parseI32 input with
  | some n => Except.ok (Value.Numerical n)
  | none => (sanitize input).map Value.String

/-- Rust `input.strip_prefix('/').and_then(|i| i.strip_suffix('/'))` from
`parse_values` in `parser.rs`. -/
def stripSlashes (s : Input) : Option Input :=
  match s with
  | '/' :: t => if (!t.isEmpty) && t.getLast? == some '/' then some t.dropLast else none
  | _ => none

/-- Rust `parse_values` from `parser.rs`.  Compilation of the regex pattern
is done by the external `regex` crate and is modelled as always
succeeding (every pattern appearing in the verified properties is valid);
the pattern is lowercased exactly as in the source. -/
def parse_values (input : String) : Except String Value :=
  match stripSlashes input.data with
  | some regex => Except.ok (Value.Regex (toLowerStr (String.mk regex)))
  | none =>
    match (splitChar '|' input).mapM parse_single_value with
    | Except.error e => Except.error e
    | Except.ok [v] => Except.ok v
    | Except.ok values => Except.ok (Value.Multiple values)

/-- First alternative of `fn values` in `parser.rs`:
`delimited(char('\x22'), take_until1("\x22"), char('\x22'))`, which yields the
content between the double quotes. -/
def pquoted (s : Input) : PR Input :=
  match pchar '"' s with
  | none => none
  | some (s1, _) =>
    match takeUntil1 ['"'] s1 with
    | none => none
    | some (s2, v) =>
      match pchar '"' s2 with
      | none => none
      | some (s3, _) => some (s3, v)

/-- Second alternative of `fn values` in `parser.rs`:
`recognize(delimited(char('/'), take_until1("/"), char('/')))`, which yields
the consumed slice including both slashes. -/
def pregex (s : Input) : PR Input :=
  match pchar '/' s with
  | none => none
  | some (s1, _) =>
    match takeUntil1 ['/'] s1 with
    | none => none
    | some (s2, _) =>
      match pchar '/' s2 with
      | none => none
      | some (s3, _) => some (s3, s.take (s.length - s3.length))

/-- Loop of nom `separated_list1(char('|'), take_until1(" |"))` after the
first element: repeatedly parse a separator followed by an element,
backtracking the separator when the element fails.  The fuel (instantiated
with the input length) only serves termination; each successful round
consumes at least two characters. -/
def sepListTail (fuel : Nat) (s : Input) : Input :=
  match fuel with
  | 0 => s
  | fuel + 1 =>
    match pchar '|' s with
    | none => s
    | some (s1, _) =>
      match takeUntil1 [' ', '|'] s1 with
      | none => s
      | some (s2, _) => sepListTail fuel s2

/-- Third alternative of `fn values` in `parser.rs`:
`recognize(separated_list1(char('|'), take_until1(" |")))`. -/
def psepList (s : Input) : PR Input :=
  match takeUntil1 [' ', '|'] s with
  | none => none
  | some (s1, _) =>
    let rest := sepListTail s.length s1
    some (rest, s.take (s.length - rest.length))

/-- Rust `fn values` from `parser.rs`: the five alternatives in source
order, with the recognized slice handed to `parse_values` via `map_res`. -/
def pvalues (s : Input) : PR Value :=
  let raw : PR Input :=
    (pquoted s) <|> (pregex s) <|> (psepList s) <|> (takeUntil1 [' '] s) <|> (prest s)
  match raw with
  | some (rest, v) =>
    match parse_values (String.mk v) with
    | Except.ok value => some (rest, value)
    | Except.error _ => none
  | none => none

/-- Structured branch of `parse_raw_filter` in `parser.rs`:
`complete(tuple((field, operator, values)))`. -/
def pstructured (s : Input) : PR RawCardFilter :=
  match pfield s with
  | none => none
  | some (s1, f) =>
    match poperator s1 with
    | none => none
    | some (s2, o) =>
      match pvalues s2 with
      | none => none
      | some (s3, v) => some (s3, ⟨f, o, v⟩)

/-- Rust `parse_raw_filter` from `parser.rs`: leading whitespace, then the
structured triple, falling back to a bare-word name clause. -/
def parse_raw_filter (s : Input) : PR RawCardFilter :=
  let s0 := multispace0 s
  match pstructured s0 with
  | some rv => some rv
  | none =>
    match word_non_empty s0 with
    | none => none
    | some (rest, w) =>
      match fallback_filter (String.mk w) with
      | Except.ok rc => some (rest, rc)
      | Except.error _ => none

/-- nom `many_m_n(_, max, p)` running at most `max` rounds: stops at the
first failure of `p`, and errors (like nom's infinite-loop protection)
if `p` ever succeeds without consuming input. -/
def manyMNAux (p : Input → PR α) : Nat → Input → Option (Input × List α)
  | 0, s => some (s, [])
  | n + 1, s =>
    match p s with
    | none => some (s, [])
    | some (rest, a) =>
      if rest.length = s.length then none
      else
        match manyMNAux p n rest with
        | some (r2, l) => some (r2, a :: l)
        | none => none

/-- Rust `parse_raw_filters` from `parser.rs`:
`many_m_n(1, 32, parse_raw_filter)`. -/
def parse_raw_filters (s : Input) : PR (List RawCardFilter) :=
  match manyMNAux parse_raw_filter 32 s with
  | some (rest, l) => if l.length < 1 then none else some (rest, l)
  | none => none

/-- Insertion step of a stable ascending sort by a `Nat` key: the new
element goes after every already-placed element of smaller or equal key. -/
def insertKeyed (k : α → Nat) (x : α) : List α → List α
  | [] => [x]
  | y :: ys => if k y ≤ k x then y :: insertKeyed k x ys else x :: y :: ys

/-- Rust `v.sort_by_key(...)` (a stable ascending sort) modelled as a
stable insertion sort; any stable ascending sort computes the same list. -/
def sortByKey (k : α → Nat) (l : List α) : List α :=
  l.foldl (fun acc x => insertKeyed k x acc) []

/-- Loop of itertools `coalesce` with the current candidate element `x`:
try to merge `x` with the next element; on success the merged element
becomes the candidate, otherwise `x` is emitted and the next element
becomes the candidate. -/
def coalesceGo (f : α → α → Option α) (x : α) : List α → List α
  | [] => [x]
  | y :: rest =>
    match f x y with
    | some m => coalesceGo f m rest
    | none => x :: coalesceGo f y rest

/-- itertools `coalesce`: merge adjacent elements as long as `f` succeeds. -/
def coalesceL (f : α → α → Option α) : List α → List α
  | [] => []
  | x :: rest => coalesceGo f x rest

/-- Merge step of the `coalesce` call in `parse_filters` in `parser.rs`:
two adjacent `(Name, Equal, String)` clauses become one whose string is
the space-joined concatenation. -/
def coalesce_names (a b : RawCardFilter) : Option RawCardFilter :=
  match a, b with
  | ⟨.Name, .Equal, .String s1⟩, ⟨.Name, .Equal, .String s2⟩ =>
    some ⟨Field.Name, Operator.Equal, Value.String (s1 ++ (" ") ++ s2)⟩
  | _, _ => none

/-- Rust `parse_filters` from `parser.rs`: parse, require full consumption,
stable-sort by field cost, coalesce adjacent name clauses, and compile
every clause.  The debug rendering of the underlying nom error in the
first error message (Rust formats it with `{e:?}`) is not modelled; only
the prefix naming the input is kept. -/
def parse_filters (rm : String → String → Bool) (input : String) :
    Except String (List RawCardFilter × List (SearchCard → Bool)) :=
  match parse_raw_filters input.data with
  | none => Except.error ("Error while parsing filters “" ++ input ++ "”")
  | some (rest, v0) =>
    if rest.isEmpty then
      let v := coalesceL coalesce_names (sortByKey (fun rc => fieldOrd rc.field) v0)
      match v.mapM (fun r => build_filter rm r) with
      | Except.ok fs => Except.ok (v, fs)
      | Except.error e => Except.error e
    else
      Except.error ("Input was not fully parsed. Left over: “" ++ String.mk rest ++ "”")

/-! Helper lemmas and concrete sample data used by the verification. -/

/-- Regex-match oracle that never matches; used to instantiate theorems on
concrete inputs whose evaluation does not involve regexes. -/
def noRm : String → String → Bool := fun _ _ => false

/-- A projection on which every optional field is inapplicable (the shape a
non-monster card such as a spell projects to). -/
def baseCard : SearchCard :=
  { id := 0, typeline := [], names := [], text := "", atk := none, def_ := none,
    attribute_ := none, level := none, link_rating := none, link_arrows := none,
    sets := [], original_year := none, legal_copies := 3, genesys_points := 0,
    price := none }

/-- A monster projection whose def is the reserved sentinel −1. -/
def sentinelCard : SearchCard := { baseCard with def_ := some (-1) }

/-- A projection whose set-code-prefix list contains exactly "ap03". -/
def apCard : SearchCard := { baseCard with sets := ["ap03"] }

/-- A projection named "ally of justice". -/
def allyCard : SearchCard := { baseCard with names := ["ally of justice"] }

/-- A projection whose name contains the words ally, of and justice but not
the phrase "ally of justice". -/
def scrambledCard : SearchCard := { baseCard with names := ["justice of ally"] }

/-- An absent field value makes `filter_value` false for every operator and
every query value: the `(Value::None, _) => false` arm. -/
theorem filter_value_none (rm : String → String → Bool) (op : Operator)
    (qv : Value) : filter_value rm op Value.None qv = false := by
  cases qv <;> rfl

/-- Substring containment is monotone in the needle: if `q1` occurs inside
`q2` and `q2` occurs inside `s`, then `q1` occurs inside `s`. -/
theorem rcontains_mono (s q1 q2 : String) (hq : q1.data <:+: q2.data)
    (h : rcontains s q2 = true) : rcontains s q1 = true := by
  simp only [rcontains, decide_eq_true_eq] at *
  exact hq.trans h

/-- Name clauses compiled by `build_filter` test whether any of the card's
name variants contains the query string. -/
theorem compiled_filter_name (rm : String → String → Bool) (card : SearchCard)
    (q : String) :
    compiled_filter rm ⟨Field.Name, Operator.Equal, Value.String q⟩ card =
      card.names.any (fun n => rcontains n q) := rfl

/-- C1: for every projection and every compiled clause, if the field has no
applicable value on that projection (`get_field_value` returns `None`, so
the field value is `Value::None`), the predicate is false for every
operator — including `NotEqual` — and every query value.  The sentinel
special case concerns a present numeric field value and never applies to an
absent one. -/
theorem c1_absent_field_never_matches (rm : String → String → Bool)
    (op op' : Operator) (qv v : Value) (field : Field) (card : SearchCard)
    (h : get_field_value card field = Option.none) :
    filter_value rm op Value.None qv = false ∧
    compiled_filter rm ⟨field, op', v⟩ card = false := by
  refine ⟨filter_value_none rm op qv, ?_⟩
  cases v <;> simp [compiled_filter, h, filter_value_none]

/-- Witness for C1: ATK is absent on the spell-shaped projection, and the
clause `atk != 100` rejects it. -/
theorem c1_witness :
    filter_value noRm Operator.NotEqual Value.None (Value.Numerical 100) = false ∧
    compiled_filter noRm ⟨Field.Atk, Operator.NotEqual, Value.Numerical 100⟩ baseCard = false :=
  c1_absent_field_never_matches noRm Operator.NotEqual Operator.NotEqual
    (Value.Numerical 100) (Value.Numerical 100) Field.Atk baseCard rfl

/-- C2: on a projection whose def is present and equals the sentinel −1,
`def = "?"` is true and `def != "?"` is false; every ordering operator
against the "?" marker is false for any numeric field value; and
`def = "?"` is false on a projection where def is absent. -/
theorem c2_sentinel_query (rm : String → String → Bool)
    (card card' : SearchCard) (d : Int) (op : Operator)
    (hc : card.def_ = some (-1)) (hc' : card'.def_ = none)
    (hop : op = Operator.Less ∨ op = Operator.LessEqual ∨
           op = Operator.Greater ∨ op = Operator.GreaterEqual) :
    compiled_filter rm ⟨Field.Def, Operator.Equal, Value.String ("?")⟩ card = true ∧
    compiled_filter rm ⟨Field.Def, Operator.NotEqual, Value.String ("?")⟩ card = false ∧
    filter_value rm op (Value.Numerical d) (Value.String ("?")) = false ∧
    compiled_filter rm ⟨Field.Def, Operator.Equal, Value.String ("?")⟩ card' = false := by
  refine ⟨?_, ?_, ?_, ?_⟩
  · simp [compiled_filter, get_field_value, hc, filter_value, Operator.filter_number]
  · simp [compiled_filter, get_field_value, hc, filter_value, Operator.filter_number]
  · rcases hop with h | h | h | h <;> subst h <;> simp [filter_value]
  · simp [compiled_filter, get_field_value, hc', filter_value_none]

/-- Witness for C2: the sentinel card is matched by `def=?` and rejected by
`def!=?`; `def<=?` is false on def 600; the spell-shaped card is not
matched by `def=?`. -/
theorem c2_witness :
    compiled_filter noRm ⟨Field.Def, Operator.Equal, Value.String ("?")⟩ sentinelCard = true ∧
    compiled_filter noRm ⟨Field.Def, Operator.NotEqual, Value.String ("?")⟩ sentinelCard = false ∧
    filter_value noRm Operator.LessEqual (Value.Numerical 600) (Value.String ("?")) = false ∧
    compiled_filter noRm ⟨Field.Def, Operator.Equal, Value.String ("?")⟩ baseCard = false :=
  c2_sentinel_query noRm sentinelCard baseCard 600 Operator.LessEqual rfl rfl
    (Or.inr (Or.inl rfl))

/-- C3 counterexample: compiling the clause `name < "foo"` — an ordering
operator against a field with no numeric/ordered semantics — does NOT
return a compile-time error: `build_filter` succeeds. -/
theorem c3_counterexample :
    (build_filter noRm ⟨Field.Name, Operator.Less, Value.String ("foo")⟩).isOk = true := rfl

/-- C3 amended: `build_filter` never returns an error for any clause (both
match arms wrap their closure in `Ok`); an ordering operator against the
Name field with a String value instead compiles to a predicate that is
false on every projection. -/
theorem c3_amended_build_filter_total (rm : String → String → Bool)
    (rc : RawCardFilter) (op : Operator) (s : String) (card : SearchCard)
    (hop : op = Operator.Less ∨ op = Operator.LessEqual ∨
           op = Operator.Greater ∨ op = Operator.GreaterEqual) :
    (build_filter rm rc).isOk = true ∧
    compiled_filter rm ⟨Field.Name, op, Value.String s⟩ card = false := by
  refine ⟨rfl, ?_⟩
  rcases hop with h | h | h | h <;> subst h <;>
    simp [compiled_filter, get_field_value, filter_value]

/-- Witness for C3 amended: the clause `name < "foo"` compiles and its
predicate rejects the "ally of justice" card. -/
theorem c3_amended_witness :
    (build_filter noRm ⟨Field.Name, Operator.Less, Value.String ("foo")⟩).isOk = true ∧
    compiled_filter noRm ⟨Field.Name, Operator.Less, Value.String ("foo")⟩ allyCard = false :=
  c3_amended_build_filter_total noRm ⟨Field.Name, Operator.Less, Value.String ("foo")⟩
    Operator.Less ("foo") allyCard (Or.inl rfl)

/-- C4 counterexample: the query `atk<=>1` is NOT rejected: `parse_filters`
succeeds on it. -/
theorem c4_counterexample :
    (parse_filters noRm ("atk<=>1")).isOk = true := rfl

/-- C4 amended: `atk<=>1` parses as the structured clause
`(Atk, LessEqual, String ">1")` (the operator grammar longest-matches
`<=` and the leftover `>1` becomes the string value), whose compiled
predicate is false on every projection; and a fallback token containing
operator characters, such as `=100`, is accepted as a literal name search
rather than rejected — `fallback_filter` in `parser.rs` performs no
operator-character check. -/
theorem c4_amended_stray_operators_accepted (rm : String → String → Bool)
    (card : SearchCard) :
    parse_raw_filters (String.data ("atk<=>1")) =
      some ([], [⟨Field.Atk, Operator.LessEqual, Value.String (">1")⟩]) ∧
    compiled_filter rm ⟨Field.Atk, Operator.LessEqual, Value.String (">1")⟩ card = false ∧
    parse_raw_filter (String.data ("=100")) =
      some ([], ⟨Field.Name, Operator.Equal, Value.String ("=100")⟩) := by
  refine ⟨rfl, ?_, rfl⟩
  cases h : card.atk <;> simp [compiled_filter, get_field_value, h, filter_value]

/-- C5 counterexample: on the card named "justice of ally" the three
single-word name clauses all match, but the coalesced compound clause
"ally of justice" does not — so the compound substring clause is NOT
equivalent to the conjunction of the three independent clauses. -/
theorem c5_counterexample :
    compiled_filter noRm ⟨Field.Name, Operator.Equal, Value.String ("ally")⟩ scrambledCard = true ∧
    compiled_filter noRm ⟨Field.Name, Operator.Equal, Value.String ("of")⟩ scrambledCard = true ∧
    compiled_filter noRm ⟨Field.Name, Operator.Equal, Value.String ("justice")⟩ scrambledCard = true ∧
    compiled_filter noRm ⟨Field.Name, Operator.Equal, Value.String ("ally of justice")⟩ scrambledCard = false :=
  ⟨rfl, rfl, rfl, rfl⟩

/-- C5 amended: parsing "ally of justice" yields, after the stable cost sort
and coalescing, exactly one clause `(Name, Equal, String "ally of justice")`;
the compound substring clause IMPLIES each of the three single-word name
clauses (so it accepts a subset of the projections the conjunction
accepts), but the converse fails, so the two are not equivalent. -/
theorem c5_amended_coalesced_name_clause (rm : String → String → Bool)
    (card : SearchCard)
    (h : compiled_filter rm ⟨Field.Name, Operator.Equal, Value.String ("ally of justice")⟩ card = true) :
    (parse_filters rm ("ally of justice")).toOption.map Prod.fst =
      some [⟨Field.Name, Operator.Equal, Value.String ("ally of justice")⟩] ∧
    compiled_filter rm ⟨Field.Name, Operator.Equal, Value.String ("ally")⟩ card = true ∧
    compiled_filter rm ⟨Field.Name, Operator.Equal, Value.String ("of")⟩ card = true ∧
    compiled_filter rm ⟨Field.Name, Operator.Equal, Value.String ("justice")⟩ card = true := by
  rw [compiled_filter_name] at h
  obtain ⟨n, hn, hc⟩ := List.any_eq_true.mp h
  refine ⟨rfl, ?_, ?_, ?_⟩ <;>
    exact (compiled_filter_name rm card _).trans
      (List.any_eq_true.mpr ⟨n, hn, rcontains_mono n _ _ (by decide) hc⟩)

/-- Witness for C5 amended: instantiated on the card actually named
"ally of justice". -/
theorem c5_amended_witness :
    (parse_filters noRm ("ally of justice")).toOption.map Prod.fst =
      some [⟨Field.Name, Operator.Equal, Value.String ("ally of justice")⟩] ∧
    compiled_filter noRm ⟨Field.Name, Operator.Equal, Value.String ("ally")⟩ allyCard = true ∧
    compiled_filter noRm ⟨Field.Name, Operator.Equal, Value.String ("of")⟩ allyCard = true ∧
    compiled_filter noRm ⟨Field.Name, Operator.Equal, Value.String ("justice")⟩ allyCard = true :=
  c5_amended_coalesced_name_clause noRm allyCard rfl

/-- C6: a `/…/`-delimited regex literal containing `|` parses to exactly one
clause whose value is a single `Regex`: `parse_values` detects the slash
delimiters before alternation splitting, so the pattern is never split
into `Multiple` alternated sub-values. -/
theorem c6_regex_literal_not_split :
    parse_values ("/(a|b) card/") = Except.ok (Value.Regex ("(a|b) card")) ∧
    parse_raw_filters (String.data ("o:/(a|b) card/")) =
      some ([], [⟨Field.Text, Operator.Equal, Value.Regex ("(a|b) card")⟩]) :=
  ⟨rfl, rfl⟩

/-- C7: a clause whose query value is `Multiple` is true iff ANY alternative
matches the field value; in particular `level=4|5|6` parses to one
`Multiple` clause and accepts exactly the union of `level=4`, `level=5`
and `level=6` evaluated independently. -/
theorem c7_multiple_is_union (rm : String → String → Bool) (card : SearchCard)
    (f : Field) (op : Operator) (vs : List Value) :
    compiled_filter rm ⟨f, op, Value.Multiple vs⟩ card =
      vs.any (fun v => filter_value rm op ((get_field_value card f).getD Value.None) v) ∧
    parse_raw_filters (String.data ("level=4|5|6")) =
      some ([], [⟨Field.Level, Operator.Equal,
        Value.Multiple [Value.Numerical 4, Value.Numerical 5, Value.Numerical 6]⟩]) ∧
    compiled_filter rm ⟨Field.Level, Operator.Equal,
        Value.Multiple [Value.Numerical 4, Value.Numerical 5, Value.Numerical 6]⟩ card =
      (compiled_filter rm ⟨Field.Level, Operator.Equal, Value.Numerical 4⟩ card ||
       compiled_filter rm ⟨Field.Level, Operator.Equal, Value.Numerical 5⟩ card ||
       compiled_filter rm ⟨Field.Level, Operator.Equal, Value.Numerical 6⟩ card) := by
  refine ⟨rfl, rfl, ?_⟩
  simp [compiled_filter, List.any_cons, List.any_nil, Bool.or_assoc]

/-- Testing a list of `String` values for Rust `Value` equality against a
`String` query is exact string equality on each element. -/
theorem any_valueEq_string (l : List String) (q : String) :
    (l.map Value.String).any (fun v => valueEq v (Value.String q)) =
      l.any (fun s => s == q) := by
  induction l with
  | nil => rfl
  | cons h t ih =>
    simp only [List.map_cons, List.any_cons, ih]
    rfl

/-- C8: set matching is exact, not substring: a `Set` clause with a `String`
query accepts iff some set-code prefix equals the query string exactly
(`NotEqual` iff none does); concretely, `set:ap03` matches the card whose
set list is `["ap03"]`, the partial `set:ap0` does not, and `set!=ap03`
rejects it. -/
theorem c8_set_matching_exact (rm : String → String → Bool)
    (card : SearchCard) (q : String) :
    compiled_filter rm ⟨Field.Set, Operator.Equal, Value.String q⟩ card =
      card.sets.any (fun s => s == q) ∧
    compiled_filter rm ⟨Field.Set, Operator.NotEqual, Value.String q⟩ card =
      !card.sets.any (fun s => s == q) ∧
    compiled_filter rm ⟨Field.Set, Operator.Equal, Value.String ("ap03")⟩ apCard = true ∧
    compiled_filter rm ⟨Field.Set, Operator.Equal, Value.String ("ap0")⟩ apCard = false ∧
    compiled_filter rm ⟨Field.Set, Operator.NotEqual, Value.String ("ap03")⟩ apCard = false := by
  refine ⟨?_, ?_, rfl, rfl, rfl⟩ <;>
    simp [compiled_filter, get_field_value, filter_value, any_valueEq_string]

/-- C9: `parse_filters` consumes the entire input: whenever `parse_raw_filters`
leaves unparsed text — in particular when the query holds more than the cap
of 32 whitespace-separated clauses — the result is a parse error naming the
leftover text instead of a filter list. -/
theorem c9_unconsumed_input_is_error (rm : String → String → Bool)
    (input : String) (rest : Input) (v : List RawCardFilter)
    (hp : parse_raw_filters input.data = some (rest, v)) (hr : rest ≠ []) :
    parse_filters rm input =
      Except.error ("Input was not fully parsed. Left over: “" ++ String.mk rest ++ "”") := by
  unfold parse_filters
  rw [hp]
  simp [List.isEmpty_iff, hr]

/-- Witness for C9: a query of 33 one-letter clauses is cut off after the
32nd, and the leftover " a" makes the whole parse fail. -/
theorem c9_witness :
    parse_filters noRm ("a a a a a a a a a a a a a a a a a a a a a a a a a a a a a a a a a") =
      Except.error ("Input was not fully parsed. Left over: “ a”") :=
  c9_unconsumed_input_is_error noRm
    ("a a a a a a a a a a a a a a a a a a a a a a a a a a a a a a a a a")
    ([' ', 'a'])
    (List.replicate 32 ⟨Field.Name, Operator.Equal, Value.String ("a")⟩)
    rfl (by decide)

/-- C10: on a projection whose attribute is absent, `get_field_value` yields
the present empty string `String ""` rather than `None`; hence for every
non-empty query string `attribute != q` is true and `attribute = q` is
false on it. -/
theorem c10_absent_attribute_is_empty_string (rm : String → String → Bool)
    (card : SearchCard) (q : String) (ha : card.attribute_ = none)
    (hq : q ≠ "") :
    get_field_value card Field.Attribute = some (Value.String ("")) ∧
    compiled_filter rm ⟨Field.Attribute, Operator.NotEqual, Value.String q⟩ card = true ∧
    compiled_filter rm ⟨Field.Attribute, Operator.Equal, Value.String q⟩ card = false := by
  have hd : q.data ≠ [] := fun h => hq (String.ext h)
  have hrc : rcontains ("") q = false := by
    simp only [rcontains, decide_eq_false_iff_not]
    intro hinf
    exact hd (List.sublist_nil.mp hinf.sublist)
  refine ⟨by simp [get_field_value, ha], ?_, ?_⟩ <;>
    simp [compiled_filter, get_field_value, ha, filter_value, hrc]

/-- Witness for C10: the spell-shaped card has no attribute; `attribute`
queries for "dark" behave as stated. -/
theorem c10_witness :
    get_field_value baseCard Field.Attribute = some (Value.String ("")) ∧
    compiled_filter noRm ⟨Field.Attribute, Operator.NotEqual, Value.String ("dark")⟩ baseCard = true ∧
    compiled_filter noRm ⟨Field.Attribute, Operator.Equal, Value.String ("dark")⟩ baseCard = false :=
  c10_absent_attribute_is_empty_string noRm baseCard ("dark") rfl (by decide)

end Aro
